import Mathlib

/-!
Verification of the deterministic-identity and curriculum pipeline of the
phonetics-anki generator.

The development shallowly embeds the relevant Python modules:

* `scripts/ids.py` — deterministic deck ids and note GUIDs (MD5 / SHA-256
  based).  Machine integers are modelled as `Nat` with explicit `% 2^32`
  reductions; byte strings are `List Nat` with every element a byte value.
* `scripts/curriculum.py` — JSON-tree validator and normalizer.  Parsed
  JSON values are modelled by the inductive `JVal`; Python dicts are
  association lists in insertion order, with lookup/assignment mirroring
  dict semantics (assignment replaces in place, otherwise appends).
* `scripts/alphabet_order.py` — the "what comes next?" generator.

Fallible code (Python exceptions) is modelled with `Except`/`Option`.
-/

set_option maxRecDepth 40000

/-! ### Byte-level helpers shared by the hash primitives (scripts/ids.py) -/

/-- `2^32`, the word modulus for both hash functions. -/
def M32 : Nat := 4294967296

/-- Big-endian bytes of `v`, exactly `k` bytes (`int.to_bytes(k, "big")`). -/
def toBytesBE : Nat → Nat → List Nat
  | 0, _ => []
  | k + 1, v => toBytesBE k (v / 256) ++ [v % 256]

/-- Little-endian bytes of `v`, exactly `k` bytes (`int.to_bytes(k, "little")`). -/
def toBytesLE : Nat → Nat → List Nat
  | 0, _ => []
  | k + 1, v => v % 256 :: toBytesLE k (v / 256)

/-- `int.from_bytes(data, "big")`. -/
def fromBytesBE (l : List Nat) : Nat := l.foldl (fun a b => a * 256 + b) 0

/-- `int.from_bytes(data, "little")`. -/
def fromBytesLE (l : List Nat) : Nat := l.foldr (fun b a => a * 256 + b) 0

/-- Split a list into chunks of `n`; `fuel` bounds the recursion and is
always called with `fuel = l.length`, which suffices whenever `n > 0`. -/
def chunksOf (n : Nat) : Nat → List Nat → List (List Nat)
  | 0, _ => []
  | _, [] => []
  | f + 1, l => l.take n :: chunksOf n f (l.drop n)

/-- UTF-8 encoding of one scalar value, as in `str.encode("utf-8")`. -/
def utf8Char (c : Char) : List Nat :=
  let n := c.toNat
  if n < 128 then [n]
  else if n < 2048 then [192 ||| (n >>> 6), 128 ||| (n &&& 63)]
  else if n < 65536 then
    [224 ||| (n >>> 12), 128 ||| ((n >>> 6) &&& 63), 128 ||| (n &&& 63)]
  else
    [240 ||| (n >>> 18), 128 ||| ((n >>> 12) &&& 63),
     128 ||| ((n >>> 6) &&& 63), 128 ||| (n &&& 63)]

/-- UTF-8 byte sequence of a string (`s.encode("utf-8")`). -/
def utf8 (s : String) : List Nat := (s.toList.map utf8Char).flatten

/-! ### SHA-256 (`hashlib.sha256`), FIPS 180-4, over byte lists -/

def rotr32 (n x : Nat) : Nat := ((x >>> n) ||| (x <<< (32 - n))) % M32

def shaCh (e f g : Nat) : Nat := (e &&& f) ^^^ ((e ^^^ 4294967295) &&& g)

def shaMaj (a b c : Nat) : Nat := (a &&& b) ^^^ (a &&& c) ^^^ (b &&& c)

def shaS0 (x : Nat) : Nat := rotr32 2 x ^^^ rotr32 13 x ^^^ rotr32 22 x

def shaS1 (x : Nat) : Nat := rotr32 6 x ^^^ rotr32 11 x ^^^ rotr32 25 x

def shas0 (x : Nat) : Nat := rotr32 7 x ^^^ rotr32 18 x ^^^ (x >>> 3)

def shas1 (x : Nat) : Nat := rotr32 17 x ^^^ rotr32 19 x ^^^ (x >>> 10)

/-- The 64 SHA-256 round constants, written in decimal. -/
def shaK : List Nat :=
  [1116352408, 1899447441, 3049323471, 3921009573, 961987163, 1508970993,
   2453635748, 2870763221, 3624381080, 310598401, 607225278, 1426881987,
   1925078388, 2162078206, 2614888103, 3248222580, 3835390401, 4022224774,
   264347078, 604807628, 770255983, 1249150122, 1555081692, 1996064986,
   2554220882, 2821834349, 2952996808, 3210313671, 3336571891, 3584528711,
   113926993, 338241895, 666307205, 773529912, 1294757372, 1396182291,
   1695183700, 1986661051, 2177026350, 2456956037, 2730485921, 2820302411,
   3259730800, 3345764771, 3516065817, 3600352804, 4094571909, 275423344,
   430227734, 506948616, 659060556, 883997877, 958139571, 1322822218,
   1537002063, 1747873779, 1955562222, 2024104815, 2227730452, 2361852424,
   2428436474, 2756734187, 3204031479, 3329325298]

/-- The eight SHA-256 initial hash words, in decimal. -/
def shaH0 : List Nat :=
  [1779033703, 3144134277, 1013904242, 2773480762,
   1359893119, 2600822924, 528734635, 1541459225]

/-- Merkle–Damgård padding: append `0x80`, zero bytes to 56 mod 64, then
the bit length as 8 big-endian bytes. -/
def sha256Pad (msg : List Nat) : List Nat :=
  let len := msg.length
  let r := (len + 1) % 64
  let zeros := if r ≤ 56 then 56 - r else 120 - r
  msg ++ [128] ++ List.replicate zeros 0 ++ toBytesBE 8 (len * 8)

/-- Message-schedule extension; `rev` holds the words produced so far,
newest first, so `rev[1] = w[t-2]`, `rev[6] = w[t-7]`, `rev[14] = w[t-15]`,
`rev[15] = w[t-16]`. -/
def shaExtend : Nat → List Nat → List Nat
  | 0, rev => rev
  | k + 1, rev =>
    shaExtend k
      ((shas1 (rev.getD 1 0) + rev.getD 6 0 + shas0 (rev.getD 14 0) + rev.getD 15 0) % M32 :: rev)

/-- The 64-word message schedule of one 64-byte block. -/
def shaSchedule (block : List Nat) : List Nat :=
  let w16 := (chunksOf 4 block.length block).map fromBytesBE
  (shaExtend 48 w16.reverse).reverse

/-- One compression round; the state is `[a,b,c,d,e,f,g,h]`. -/
def shaRound (st : List Nat) (w k : Nat) : List Nat :=
  let a := st.getD 0 0
  let b := st.getD 1 0
  let c := st.getD 2 0
  let d := st.getD 3 0
  let e := st.getD 4 0
  let f := st.getD 5 0
  let g := st.getD 6 0
  let h := st.getD 7 0
  let t1 := (h + shaS1 e + shaCh e f g + k + w) % M32
  let t2 := (shaS0 a + shaMaj a b c) % M32
  [(t1 + t2) % M32, a, b, c, (d + t1) % M32, e, f, g]

def shaCompress (h : List Nat) (block : List Nat) : List Nat :=
  let st := ((shaSchedule block).zip shaK).foldl (fun st wk => shaRound st wk.1 wk.2) h
  (h.zip st).map (fun p => (p.1 + p.2) % M32)

/-- SHA-256 digest (32 bytes) of a byte list. -/
def sha256 (msg : List Nat) : List Nat :=
  let padded := sha256Pad msg
  (((chunksOf 64 padded.length padded).foldl shaCompress shaH0).map (toBytesBE 4)).flatten

/-! ### MD5 (`hashlib.md5`), RFC 1321, over byte lists -/

def rotl32 (n x : Nat) : Nat := ((x <<< n) ||| (x >>> (32 - n))) % M32

def md5K : List Nat :=
  [0xd76aa478, 0xe8c7b756, 0x242070db, 0xc1bdceee, 0xf57c0faf, 0x4787c62a, 0xa8304613, 0xfd469501,
   0x698098d8, 0x8b44f7af, 0xffff5bb1, 0x895cd7be, 0x6b901122, 0xfd987193, 0xa679438e, 0x49b40821,
   0xf61e2562, 0xc040b340, 0x265e5a51, 0xe9b6c7aa, 0xd62f105d, 0x02441453, 0xd8a1e681, 0xe7d3fbc8,
   0x21e1cde6, 0xc33707d6, 0xf4d50d87, 0x455a14ed, 0xa9e3e905, 0xfcefa3f8, 0x676f02d9, 0x8d2a4c8a,
   0xfffa3942, 0x8771f681, 0x6d9d6122, 0xfde5380c, 0xa4beea44, 0x4bdecfa9, 0xf6bb4b60, 0xbebfbc70,
   0x289b7ec6, 0xeaa127fa, 0xd4ef3085, 0x04881d05, 0xd9d4d039, 0xe6db99e5, 0x1fa27cf8, 0xc4ac5665,
   0xf4292244, 0x432aff97, 0xab9423a7, 0xfc93a039, 0x655b59c3, 0x8f0ccc92, 0xffeff47d, 0x85845dd1,
   0x6fa87e4f, 0xfe2ce6e0, 0xa3014314, 0x4e0811a1, 0xf7537e82, 0xbd3af235, 0x2ad7d2bb, 0xeb86d391]

def md5S : List Nat :=
  [7, 12, 17, 22, 7, 12, 17, 22, 7, 12, 17, 22, 7, 12, 17, 22,
   5, 9, 14, 20, 5, 9, 14, 20, 5, 9, 14, 20, 5, 9, 14, 20,
   4, 11, 16, 23, 4, 11, 16, 23, 4, 11, 16, 23, 4, 11, 16, 23,
   6, 10, 15, 21, 6, 10, 15, 21, 6, 10, 15, 21, 6, 10, 15, 21]

def md5F (i b c d : Nat) : Nat :=
  if i < 16 then (b &&& c) ||| ((b ^^^ 4294967295) &&& d)
  else if i < 32 then (d &&& b) ||| ((d ^^^ 4294967295) &&& c)
  else if i < 48 then b ^^^ c ^^^ d
  else c ^^^ (b ||| (d ^^^ 4294967295))

def md5G (i : Nat) : Nat :=
  if i < 16 then i
  else if i < 32 then (5 * i + 1) % 16
  else if i < 48 then (3 * i + 5) % 16
  else (7 * i) % 16

/-- Same padding as SHA-256 but the bit length is little-endian. -/
def md5Pad (msg : List Nat) : List Nat :=
  let len := msg.length
  let r := (len + 1) % 64
  let zeros := if r ≤ 56 then 56 - r else 120 - r
  msg ++ [128] ++ List.replicate zeros 0 ++ toBytesLE 8 (len * 8)

def md5H0 : List Nat := [0x67452301, 0xefcdab89, 0x98badcfe, 0x10325476]

/-- One MD5 round on state `[a,b,c,d]` with message words `m`. -/
def md5Round (m : List Nat) (st : List Nat) (i : Nat) : List Nat :=
  let a := st.getD 0 0
  let b := st.getD 1 0
  let c := st.getD 2 0
  let d := st.getD 3 0
  let f := (md5F i b c d + a + md5K.getD i 0 + m.getD (md5G i) 0) % M32
  [d, (b + rotl32 (md5S.getD i 0) f) % M32, b, c]

def md5Compress (h : List Nat) (block : List Nat) : List Nat :=
  let m := (chunksOf 4 block.length block).map fromBytesLE
  let st := (List.range 64).foldl (md5Round m) h
  (h.zip st).map (fun p => (p.1 + p.2) % M32)

/-- MD5 digest (16 bytes) of a byte list. -/
def md5 (msg : List Nat) : List Nat :=
  let padded := md5Pad msg
  (((chunksOf 64 padded.length padded).foldl md5Compress md5H0).map (toBytesLE 4)).flatten

/-! ### scripts/ids.py -/

/-- The base62 alphabet of `_bytes_to_guid`. -/
def guidChars : String := "0123456789ABCDEFGHIJKLMNOPQRSTUVWXYZabcdefghijklmnopqrstuvwxyz"

/-- `chars[n]` for the alphabet above (always called with `n < 62`). -/
def guidChar (n : Nat) : Char := guidChars.toList.getD n '0'

/-- The digits emitted by the `while num > 0` loop of `_bytes_to_guid`,
least-significant first.  `fuel` bounds the iterations; `fuel = n` always
suffices because the digit count of `n` is at most `n`. -/
def guidDigits : Nat → Nat → List Char
  | 0, _ => []
  | f + 1, n => if n = 0 then [] else guidChar (n % 62) :: guidDigits f (n / 62)

/-- `_bytes_to_guid` (scripts/ids.py): interpret the bytes as a big-endian
integer and encode it in base 62; value `0` maps to `"0"`. -/
def _bytes_to_guid (data : List Nat) : String :=
  let num := fromBytesBE data
  if num = 0 then "0" else String.mk (guidDigits num num).reverse

/-- `note_guid` (scripts/ids.py): SHA-256 of
`"phonics-anki:<namespace>:<item_id>"`, first 8 bytes, base62-encoded.
The Python `ModelNamespace` literal type is modelled as `String`. -/
def note_guid (model_namespace : String) (item_id : String) : String :=
  _bytes_to_guid ((sha256 (utf8 ("phonics-anki:" ++ model_namespace ++ ":" ++ item_id))).take 8)

/-- `_hash_to_id` (scripts/ids.py): MD5 of the namespace, first 8 bytes
big-endian, masked to 63 bits. -/
def _hash_to_id (namespc : String) : Nat :=
  fromBytesBE ((md5 (utf8 namespc)).take 8) &&& 0x7FFFFFFFFFFFFFFF

/-- `deck_id_for_subdeck` (scripts/ids.py). -/
def deck_id_for_subdeck (subdeck_name : String) : Nat :=
  _hash_to_id ("phonics-anki:deck:" ++ subdeck_name)

def DECK_NAME_SOUNDS : String := "Phonics::1. Sounds (Core)"

def DECK_NAME_SPELLINGS : String := "Phonics::2. Spellings (Graphemes)"

def DECK_NAME_PATTERNS : String := "Phonics::3. Patterns (Chunks/Rimes)"

def DECK_NAME_ALPHABET_CASE : String := "Alphabet::1. Uppercase + Lowercase"

def DECK_NAME_ALPHABET_ORDER : String := "Alphabet::2. Order (What Comes Next?)"

def DECK_NAME_VISUAL_CONFUSABLES : String := "Advanced::Visual Discrimination (Letters)"

def DECK_NAME_MINIMAL_PAIRS : String := "Advanced::Minimal Pairs (Sound)"

/-- The fixed production set of subdeck display names (scripts/ids.py). -/
def productionSubdeckNames : List String :=
  [DECK_NAME_SOUNDS, DECK_NAME_SPELLINGS, DECK_NAME_PATTERNS, DECK_NAME_ALPHABET_CASE,
   DECK_NAME_ALPHABET_ORDER, DECK_NAME_VISUAL_CONFUSABLES, DECK_NAME_MINIMAL_PAIRS]

/-! ### scripts/curriculum.py — data model

Parsed JSON values.  JSON numbers are modelled as `Int`: the curriculum
schema only ever constrains integer fields, and no claim involves floats.
Python dicts are association lists in insertion order (JSON objects have
unique keys); `lookupKey`/`setKey` mirror dict subscripting and assignment.
-/

inductive JVal where
  | null : JVal
  | bool (b : Bool) : JVal
  | num (n : Int) : JVal
  | str (s : String) : JVal
  | arr (xs : List JVal) : JVal
  | obj (kvs : List (String × JVal)) : JVal

/-- First binding of `key`, i.e. Python `d[key]` (as an `Option`). -/
def lookupKey : List (String × JVal) → String → Option JVal
  | [], _ => none
  | (k, v) :: rest, key => if k = key then some v else lookupKey rest key

/-- Python `key in d`. -/
def containsKey (kvs : List (String × JVal)) (key : String) : Bool :=
  (lookupKey kvs key).isSome

/-- Python `d[key] = v`: replace in place if present, else append. -/
def setKey : List (String × JVal) → String → JVal → List (String × JVal)
  | [], key, v => [(key, v)]
  | (k, w) :: rest, key, v =>
    if k = key then (key, v) :: rest else (k, w) :: setKey rest key v

/-- Python `type(v).__name__` for parsed-JSON values. -/
def pyType : JVal → String
  | .null => "NoneType"
  | .bool _ => "bool"
  | .num _ => "int"
  | .str _ => "str"
  | .arr _ => "list"
  | .obj _ => "dict"

/-- Python `repr(v)` for parsed-JSON values (string escaping elided: the
messages the claims touch never render containers or quoted strings). -/
def pyRepr : JVal → String
  | .null => "None"
  | .bool b => if b then "True" else "False"
  | .num n => toString n
  | .str s => "'" ++ s ++ "'"
  | .arr xs => "[" ++ String.intercalate ", " (xs.attach.map (fun x => pyRepr x.1)) ++ "]"
  | .obj kvs =>
    "\x7b" ++
      String.intercalate ", " (kvs.attach.map (fun kv => "'" ++ kv.1.1 ++ "': " ++ pyRepr kv.1.2)) ++
      "\x7d"
termination_by v => sizeOf v
decreasing_by
  · have := List.sizeOf_lt_of_mem x.2
    simp at *
    omega
  · have h1 := List.sizeOf_lt_of_mem kv.2
    have h2 : sizeOf kv.1.2 < sizeOf kv.1 := by
      obtain ⟨⟨a, b⟩, hm⟩ := kv
      simp
    simp at *
    omega

/-- Python `str(v)` (used by f-string interpolation). -/
def pyStr : JVal → String
  | .str s => s
  | v => pyRepr v

/-- Python `isinstance(v, int)` — `True` for `bool` too, since `bool` is a
subclass of `int`. -/
def isInstInt : JVal → Bool
  | .num _ => true
  | .bool _ => true
  | _ => false

/-! ### scripts/curriculum.py — validators.

Each `_validate_*` function mirrors the source function of the same name;
`CurriculumError` exceptions become `Except.error` with the exact message. -/

/-- `_validate_meta` (scripts/curriculum.py). -/
def _validate_meta (meta : JVal) (path : String := "meta") : Except String Unit :=
  match meta with
  | .obj kvs =>
    if ¬ containsKey kvs "dialect" then
      .error (path ++ ": missing required field 'dialect'")
    else if ¬ containsKey kvs "version" then
      .error (path ++ ": missing required field 'version'")
    else .ok ()
  | v => .error (path ++ ": expected object, got " ++ pyType v)

/-- `_validate_letter` (scripts/curriculum.py). -/
def _validate_letter (letter : JVal) (index : Nat) (path : String) : Except String Unit :=
  match letter with
  | .obj kvs =>
    if ¬ containsKey kvs "id" then
      .error (path ++ "[" ++ toString index ++ "]: missing required field 'id'")
    else if ¬ containsKey kvs "upper" then
      .error (path ++ "[" ++ toString index ++ "]: missing required field 'upper'")
    else if ¬ containsKey kvs "lower" then
      .error (path ++ "[" ++ toString index ++ "]: missing required field 'lower'")
    else if ¬ containsKey kvs "order" then
      .error (path ++ "[" ++ toString index ++ "]: missing required field 'order'")
    else
      match lookupKey kvs "id" with
      | some (.str s) =>
        if s = "" then .error (path ++ "[" ++ toString index ++ "].id: must be a non-empty string")
        else if ¬ isInstInt ((lookupKey kvs "order").getD .null) then
          .error (path ++ "[" ++ toString index ++ "].order: must be an integer")
        else .ok ()
      | _ => .error (path ++ "[" ++ toString index ++ "].id: must be a non-empty string")
  | v => .error (path ++ "[" ++ toString index ++ "]: expected object, got " ++ pyType v)

/-- `_validate_confusable` (scripts/curriculum.py). -/
def _validate_confusable (confusable : JVal) (index : Nat) (path : String) : Except String Unit :=
  match confusable with
  | .obj kvs =>
    if ¬ containsKey kvs "id" then
      .error (path ++ "[" ++ toString index ++ "]: missing required field 'id'")
    else if ¬ containsKey kvs "left" then
      .error (path ++ "[" ++ toString index ++ "]: missing required field 'left'")
    else if ¬ containsKey kvs "right" then
      .error (path ++ "[" ++ toString index ++ "]: missing required field 'right'")
    else
      match lookupKey kvs "id" with
      | some (.str s) =>
        if s = "" then .error (path ++ "[" ++ toString index ++ "].id: must be a non-empty string")
        else .ok ()
      | _ => .error (path ++ "[" ++ toString index ++ "].id: must be a non-empty string")
  | v => .error (path ++ "[" ++ toString index ++ "]: expected object, got " ++ pyType v)

/-- The `for i, x in enumerate(xs): _validate_*(x, i, path)` loops. -/
def validateEach (f : JVal → Nat → String → Except String Unit) (path : String) :
    Nat → List JVal → Except String Unit
  | _, [] => .ok ()
  | i, x :: rest =>
    match f x i path with
    | .error e => .error e
    | .ok () => validateEach f path (i + 1) rest

/-- `_validate_alphabet` (scripts/curriculum.py). -/
def _validate_alphabet (alphabet : JVal) (path : String := "alphabet") : Except String Unit :=
  match alphabet with
  | .obj kvs =>
    match lookupKey kvs "letters" with
    | none => .error (path ++ ": missing required field 'letters'")
    | some (.arr ls) =>
      match validateEach _validate_letter (path ++ ".letters") 0 ls with
      | .error e => .error e
      | .ok () =>
        match lookupKey kvs "confusables" with
        | none => .ok ()
        | some (.arr cs) => validateEach _validate_confusable (path ++ ".confusables") 0 cs
        | some v => .error (path ++ ".confusables: expected array, got " ++ pyType v)
    | some v => .error (path ++ ".letters: expected array, got " ++ pyType v)
  | v => .error (path ++ ": expected object, got " ++ pyType v)

/-- `_validate_example` (scripts/curriculum.py); the source parameter is
named `example`, a Lean keyword. -/
def _validate_example (exampl : JVal) (index : Nat) (path : String) : Except String Unit :=
  match exampl with
  | .obj kvs =>
    match lookupKey kvs "word" with
    | none => .error (path ++ "[" ++ toString index ++ "]: missing required field 'word'")
    | some (.str s) =>
      if s = "" then .error (path ++ "[" ++ toString index ++ "].word: must be a non-empty string")
      else .ok ()
    | some _ => .error (path ++ "[" ++ toString index ++ "].word: must be a non-empty string")
  | v => .error (path ++ "[" ++ toString index ++ "]: expected object, got " ++ pyType v)

/-- The `left`/`right` sub-object check of `_validate_item`. -/
def validatePairField (kvs : List (String × JVal)) (index : Nat) (path idStr fld : String) :
    Except String Unit :=
  match lookupKey kvs fld with
  | none =>
    .error (path ++ "[" ++ toString index ++ "] (id=" ++ idStr ++ "): missing required field '" ++
      fld ++ "'")
  | some (.obj sub) =>
    if ¬ containsKey sub "word" then
      .error (path ++ "[" ++ toString index ++ "] (id=" ++ idStr ++ ")." ++ fld ++
        ": missing required field 'word'")
    else .ok ()
  | some v =>
    .error (path ++ "[" ++ toString index ++ "] (id=" ++ idStr ++ ")." ++ fld ++
      ": expected object, got " ++ pyType v)

/-- `_validate_item` (scripts/curriculum.py). -/
def _validate_item (item : JVal) (index : Nat) (path : String) : Except String Unit :=
  match item with
  | .obj kvs =>
    match lookupKey kvs "id" with
    | none => .error (path ++ "[" ++ toString index ++ "]: missing required field 'id'")
    | some (.str idStr) =>
      if idStr = "" then
        .error (path ++ "[" ++ toString index ++ "].id: must be a non-empty string")
      else
        match lookupKey kvs "type" with
        | none =>
          .error (path ++ "[" ++ toString index ++ "] (id=" ++ idStr ++
            "): missing required field 'type'")
        | some (.str t) =>
          if ¬ (t = "sound" ∨ t = "pattern" ∨ t = "minimal_pair_sound") then
            .error (path ++ "[" ++ toString index ++ "] (id=" ++ idStr ++ "): invalid type '" ++
              t ++ "'. Must be one of: sound, pattern, minimal_pair_sound")
          else if t = "sound" ∨ t = "pattern" then
            match lookupKey kvs "examples" with
            | none =>
              .error (path ++ "[" ++ toString index ++ "] (id=" ++ idStr ++
                "): missing required field 'examples'")
            | some (.arr exs) =>
              if exs.length = 0 then
                .error (path ++ "[" ++ toString index ++ "] (id=" ++ idStr ++
                  "): examples list cannot be empty")
              else
                validateEach _validate_example
                  (path ++ "[" ++ toString index ++ "].examples") 0 exs
            | some v =>
              .error (path ++ "[" ++ toString index ++ "] (id=" ++ idStr ++
                ").examples: expected array, got " ++ pyType v)
          else
            match validatePairField kvs index path idStr "left" with
            | .error e => .error e
            | .ok () => validatePairField kvs index path idStr "right"
        | some itemType =>
          -- a non-string type value is never in the valid set; `str()` of it
          -- is rendered by `pyStr`
          .error (path ++ "[" ++ toString index ++ "] (id=" ++ idStr ++ "): invalid type '" ++
            pyStr itemType ++ "'. Must be one of: sound, pattern, minimal_pair_sound")
    | some _ => .error (path ++ "[" ++ toString index ++ "].id: must be a non-empty string")
  | v => .error (path ++ "[" ++ toString index ++ "]: expected object, got " ++ pyType v)

/-- `item["id"]` as a string.  After `_validate_item` succeeds the value is
a string, so the fall-back branches are unreachable where this is used. -/
def item_id_str : JVal → String
  | .obj kvs =>
    match lookupKey kvs "id" with
    | some (.str s) => s
    | _ => ""
  | _ => ""

/-- The indexed loop of `_validate_items`: validate each item, then check
its id against the `seen_ids` set (a membership-only set, modelled as a
list of the ids seen so far). -/
def validateItemsLoop (path : String) : Nat → List String → List JVal → Except String Unit
  | _, _, [] => .ok ()
  | i, seen, item :: rest =>
    match _validate_item item i path with
    | .error e => .error e
    | .ok () =>
      let itemId := item_id_str item
      if itemId ∈ seen then
        .error (path ++ "[" ++ toString i ++ "]: duplicate id '" ++ itemId ++ "'")
      else validateItemsLoop path (i + 1) (itemId :: seen) rest

/-- `_validate_items` (scripts/curriculum.py). -/
def _validate_items (items : JVal) (path : String := "items") : Except String Unit :=
  match items with
  | .arr l => validateItemsLoop path 0 [] l
  | v => .error (path ++ ": expected array, got " ++ pyType v)

/-- The validation part of `load_curriculum` (scripts/curriculum.py), after
JSON parsing: root-object check, required sections, then the three section
validators in order.  File handling and JSON parsing are outside the core
(the spec delegates them to the external parser). -/
def validateCurriculum (data : JVal) : Except String Unit :=
  match data with
  | .obj kvs =>
    if ¬ containsKey kvs "meta" then .error "Missing required section: 'meta'"
    else if ¬ containsKey kvs "alphabet" then .error "Missing required section: 'alphabet'"
    else if ¬ containsKey kvs "items" then .error "Missing required section: 'items'"
    else
      match _validate_meta ((lookupKey kvs "meta").getD .null) "meta" with
      | .error e => .error e
      | .ok () =>
        match _validate_alphabet ((lookupKey kvs "alphabet").getD .null) "alphabet" with
        | .error e => .error e
        | .ok () => _validate_items ((lookupKey kvs "items").getD .null) "items"
  | v => .error ("Curriculum root must be an object, got " ++ pyType v)

/-! ### scripts/curriculum.py — normalizer -/

/-- `_normalize_item` (scripts/curriculum.py).  `normalized = dict(item)`
copies the top-level bindings, so the input item's value is untouched. -/
def _normalize_item (item : List (String × JVal)) : List (String × JVal) :=
  let n1 :=
    match lookupKey item "graphemes" with
    | none => setKey item "graphemes" (.arr [])
    | some (.str s) => setKey item "graphemes" (.arr [.str s])
    | some _ => item
  if containsKey n1 "notes" then n1 else setKey n1 "notes" (.str "")

/-- The `[_normalize_item(item) for item in data.get("items", [])]`
comprehension; `dict(item)` raises `TypeError` for a non-dict element,
modelled as `none`.  (Validation guarantees every element is a dict.) -/
def normalizeItemsList : List JVal → Option (List JVal)
  | [] => some []
  | .obj kvs :: rest => (normalizeItemsList rest).map (fun r => .obj (_normalize_item kvs) :: r)
  | _ :: _ => none

/-- `_normalize_curriculum` (scripts/curriculum.py).  `dict(data)` is a
SHALLOW copy: `normalized["alphabet"]` aliases `data["alphabet"]`, so the
in-place default `normalized["alphabet"]["confusables"] = []` also writes
into the caller's tree.  The embedding makes that heap effect explicit by
returning `(result, post)`, where `result` is the returned dict's value and
`post` is the value of the caller's `data` argument after the call.
A non-dict `alphabet` value would raise in Python and is modelled as
`none`; validated trees never reach it. -/
def _normalize_curriculum (data : List (String × JVal)) :
    Option (List (String × JVal) × List (String × JVal)) :=
  match (lookupKey data "items").getD (.arr []) with
  | .arr items =>
    match normalizeItemsList items with
    | none => none
    | some items' =>
      let n1 := setKey data "items" (.arr items')
      match lookupKey n1 "alphabet" with
      | none => some (n1, data)
      | some (.obj akvs) =>
        if containsKey akvs "confusables" then some (n1, data)
        else
          let akvs' := setKey akvs "confusables" (.arr [])
          some (setKey n1 "alphabet" (.obj akvs'), setKey data "alphabet" (.obj akvs'))
      | some _ => none
  | _ => none

/-- The value transform the items comprehension applies to one element:
a dict is normalized, anything else raises in Python (covered by
`normalizeItemsList` returning `none`; this total version is used to state
what the comprehension returns on all-dict lists). -/
def normItemVal : JVal → JVal
  | .obj kvs => .obj (_normalize_item kvs)
  | v => v

/-! ### scripts/alphabet_order.py

`generate_alphabet_order_items` reads exactly two keys of each letter dict,
`letter.get("order", ...)` and `letter.get("upper", "")`, so a letter is
modelled by those two optional fields (`order` an integer, as validation
guarantees, and `upper` a string).  The lazy generator is modelled as the
list of all yielded entries. -/

structure AlphaLetter where
  order : Option Int
  upper : Option String
  deriving DecidableEq, Repr

structure AlphabetOrderEntry where
  id : String
  prompt : String
  answer : String
  position : Int
  deriving DecidableEq, Repr

/-- `x.get("order", 0)`, the sort key of the `sorted(...)` call. -/
def letterSortKey (x : AlphaLetter) : Int := x.order.getD 0

/-- Insert before the first element with a strictly larger key, matching
the stable placement of Python's `sorted` for equal keys. -/
def insertByOrder (x : AlphaLetter) : List AlphaLetter → List AlphaLetter
  | [] => [x]
  | y :: ys =>
    if letterSortKey x ≤ letterSortKey y then x :: y :: ys else y :: insertByOrder x ys

/-- `sorted(letters, key=lambda x: x.get("order", 0))` — a stable sort. -/
def sortLettersByOrder : List AlphaLetter → List AlphaLetter
  | [] => []
  | x :: xs => insertByOrder x (sortLettersByOrder xs)

/-- The entry yielded for index `i` of the sorted list `s`. -/
def alphabetOrderEntryAt (s : List AlphaLetter) (window_size i : Nat) : AlphabetOrderEntry :=
  let window := (s.drop (i - window_size)).take window_size
  let answer_letter := (s.drop i).headD ⟨none, none⟩
  let prompt := String.intercalate "  " (window.map (fun l => l.upper.getD "")) ++ "  __"
  let position : Int := answer_letter.order.getD ((i : Int) + 1)
  { id := "alphabet_order_" ++ toString position
    prompt := prompt
    answer := answer_letter.upper.getD ""
    position := position }

/-- `generate_alphabet_order_items` (scripts/alphabet_order.py): sort by
`order`, then yield one entry per index in `range(window_size, len)`. -/
def generate_alphabet_order_items (letters : List AlphaLetter) (window_size : Nat := 4) :
    List AlphabetOrderEntry :=
  let sorted_letters := sortLettersByOrder letters
  (List.range' window_size (sorted_letters.length - window_size)).map
    (alphabetOrderEntryAt sorted_letters window_size)

/-- The 26 letters A..Z with `order` values 1..26, the fixture of testable
property §8.9 of the spec. -/
def abcLetters : List AlphaLetter :=
  (List.range 26).map (fun i =>
    { order := some (Int.ofNat (i + 1)),
      upper := some (String.mk [Char.ofNat (65 + i)]) })

/-! ### Concrete curriculum fixtures used by counterexamples and witnesses -/

/-- A minimal well-formed curriculum whose `meta` maps both `dialect` and
`version` to `null`. -/
def nullMetaTree : JVal :=
  .obj
    [("meta", .obj [("dialect", .null), ("version", .null)]),
     ("alphabet", .obj [("letters", .arr [])]),
     ("items", .arr [])]

/-- A minimal valid curriculum whose alphabet LACKS the `confusables` key:
the input that `_normalize_curriculum` mutates. -/
def noConfusablesTree : List (String × JVal) :=
  [("meta", .obj [("dialect", .str "General American"), ("version", .str "v1")]),
   ("alphabet", .obj [("letters", .arr [])]),
   ("items", .arr [])]

/-- A valid one-sound-item curriculum: the item lacks `graphemes` and
`notes`, and the alphabet lacks `confusables`. -/
def bareItemTree : List (String × JVal) :=
  [("meta", .obj [("dialect", .str "General American"), ("version", .str "v1")]),
   ("alphabet",
    .obj [("letters", .arr [.obj [("id", .str "letter_a"), ("upper", .str "A"),
                                  ("lower", .str "a"), ("order", .num 1)]])]),
   ("items",
    .arr [.obj [("id", .str "sound_ae"), ("type", .str "sound"),
                ("examples", .arr [.obj [("word", .str "apple")]])]])]

/-- Two individually valid items sharing the id `same_id` (the duplicate-id
fixture of the test suite). -/
def dupItems : List JVal :=
  [.obj [("id", .str "same_id"), ("type", .str "sound"),
         ("examples", .arr [.obj [("word", .str "one")]])],
   .obj [("id", .str "same_id"), ("type", .str "sound"),
         ("examples", .arr [.obj [("word", .str "two")]])]]

/-! ### Association-list (Python dict) lemmas -/

theorem lookupKey_setKey_self (l : List (String × JVal)) (k : String) (v : JVal) :
    lookupKey (setKey l k v) k = some v := by
  induction l with
  | nil => simp [setKey, lookupKey]
  | cons hd tl ih =>
    obtain ⟨k0, w⟩ := hd
    by_cases h0 : k0 = k
    · simp [setKey, h0, lookupKey]
    · simp [setKey, h0, lookupKey, ih]

theorem lookupKey_setKey_ne (l : List (String × JVal)) (k k' : String) (v : JVal)
    (h : k' ≠ k) : lookupKey (setKey l k v) k' = lookupKey l k' := by
  induction l with
  | nil => simp [setKey, lookupKey, Ne.symm h]
  | cons hd tl ih =>
    obtain ⟨k0, w⟩ := hd
    by_cases h0 : k0 = k
    · subst h0
      simp [setKey, lookupKey, Ne.symm h]
    · by_cases h1 : k0 = k'
      · simp [setKey, h0, lookupKey, h1, h]
      · simp [setKey, h0, lookupKey, h1, ih]

theorem containsKey_setKey_self (l : List (String × JVal)) (k : String) (v : JVal) :
    containsKey (setKey l k v) k = true := by
  simp [containsKey, lookupKey_setKey_self]

theorem setKey_eq_self (l : List (String × JVal)) (k : String) (v : JVal)
    (h : lookupKey l k = some v) : setKey l k v = l := by
  induction l with
  | nil => simp [lookupKey] at h
  | cons hd tl ih =>
    obtain ⟨k0, w⟩ := hd
    by_cases h0 : k0 = k
    · subst h0
      simp [lookupKey] at h
      simp [setKey, h]
    · simp [lookupKey, h0] at h
      simp [setKey, h0, ih h]

/-! ### Base62 token lemmas (`_bytes_to_guid`) -/

theorem guidChar_isAlphanum (n : Nat) : (guidChar (n % 62)).isAlphanum = true := by
  have h : ∀ m, m < 62 → (guidChar m).isAlphanum = true := by decide
  exact h _ (Nat.mod_lt _ (by norm_num))

theorem guidDigits_alnum :
    ∀ (fuel n : Nat), ∀ c ∈ guidDigits fuel n, c.isAlphanum = true := by
  intro fuel
  induction fuel with
  | zero => intro n c hc; simp [guidDigits] at hc
  | succ f ih =>
    intro n c hc
    by_cases h0 : n = 0
    · simp [guidDigits, h0] at hc
    · simp [guidDigits, h0] at hc
      rcases hc with hc | hc
      · subst hc
        exact guidChar_isAlphanum n
      · exact ih _ c hc

theorem guidDigits_ne_nil (n : Nat) (h : n ≠ 0) : guidDigits n n ≠ [] := by
  obtain ⟨m, rfl⟩ := Nat.exists_eq_succ_of_ne_zero h
  simp [guidDigits, h]

/-- `_bytes_to_guid` always yields a non-empty, purely alphanumeric token. -/
theorem bytes_to_guid_wellformed (data : List Nat) :
    _bytes_to_guid data ≠ "" ∧ ∀ c ∈ (_bytes_to_guid data).toList, c.isAlphanum = true := by
  show
    (if fromBytesBE data = 0 then "0"
      else String.mk (guidDigits (fromBytesBE data) (fromBytesBE data)).reverse) ≠ "" ∧
    ∀ c ∈ (if fromBytesBE data = 0 then "0"
      else String.mk (guidDigits (fromBytesBE data) (fromBytesBE data)).reverse).toList,
      c.isAlphanum = true
  by_cases h : fromBytesBE data = 0
  · simp only [if_pos h]
    exact ⟨by decide, by decide⟩
  · simp only [if_neg h]
    constructor
    · intro hcon
      exact guidDigits_ne_nil _ h (List.reverse_eq_nil_iff.mp (congrArg String.data hcon))
    · intro c hc
      exact guidDigits_alnum _ _ c (List.mem_reverse.mp hc)

/-! ### Claim theorems — identity subsystem -/

/-- C1: `note_guid` is deterministic — equal inputs give equal tokens —
and the two fixed regression values hold:
`note_guid("sound","sound_ae") = "CGeQgyusBST"` and
`note_guid("pattern","pattern_th_voiceless") = "EmnACxldShN"`. -/
theorem note_guid_deterministic_and_regression :
    (∀ n s : String, note_guid n s = note_guid n s) ∧
    note_guid "sound" "sound_ae" = "CGeQgyusBST" ∧
    note_guid "pattern" "pattern_th_voiceless" = "EmnACxldShN" :=
  ⟨fun _ _ => rfl, by decide, by decide⟩

/-- C7: for every namespace and item id, `note_guid` returns a non-empty
string of alphanumeric characters only; and the all-zero 8-byte digest
prefix encodes to the alphabet's first character `"0"`, not to `""`. -/
theorem note_guid_alphanumeric :
    (∀ n s : String,
      note_guid n s ≠ "" ∧ ∀ c ∈ (note_guid n s).toList, c.isAlphanum = true) ∧
    _bytes_to_guid [0, 0, 0, 0, 0, 0, 0, 0] = "0" :=
  ⟨fun n s => bytes_to_guid_wellformed _, by decide⟩

/-- Witness for C7 at a concrete namespace, item id and character. -/
theorem note_guid_alphanumeric_witness :
    note_guid "sound" "sound_ae" ≠ "" ∧ ('C').isAlphanum = true :=
  ⟨(note_guid_alphanumeric.1 "sound" "sound_ae").1,
   (note_guid_alphanumeric.1 "sound" "sound_ae").2 'C' (by decide)⟩

/-- What the embedding establishes about deck ids: `deck_id_for_subdeck`
is `_hash_to_id` of the prefixed display name, is stable, stays within
`[0, 2^63 - 1]`, the fixed production set of subdeck names maps to
pairwise distinct ids, and every production name yields a positive id.
Positivity for EVERY conceivable display name would assert that no input
gives MD5 a digest whose 63 masked leading bits vanish — a cryptographic
property that is neither provable nor refutable here, so it is not
claimed. -/
theorem deck_id_for_subdeck_spec :
    (∀ s : String, deck_id_for_subdeck s = _hash_to_id ("phonics-anki:deck:" ++ s)) ∧
    (∀ s : String, deck_id_for_subdeck s = deck_id_for_subdeck s) ∧
    (∀ s : String, deck_id_for_subdeck s ≤ 2 ^ 63 - 1) ∧
    (productionSubdeckNames.map deck_id_for_subdeck).Pairwise (· ≠ ·) ∧
    (∀ nm ∈ productionSubdeckNames, 0 < deck_id_for_subdeck nm) := by
  refine ⟨fun s => rfl, fun s => rfl, fun s => ?_, by decide, by decide⟩
  unfold deck_id_for_subdeck _hash_to_id
  exact le_trans Nat.and_le_right (by norm_num)

/-- The membership-guarded positivity above, instantiated at a concrete
production name. -/
theorem deck_id_for_subdeck_spec_witness :
    DECK_NAME_SOUNDS ∈ productionSubdeckNames ∧ 0 < deck_id_for_subdeck DECK_NAME_SOUNDS :=
  ⟨by decide, deck_id_for_subdeck_spec.2.2.2.2 DECK_NAME_SOUNDS (by decide)⟩

/-! ### Alphabet-order generator lemmas and claims -/

theorem insertByOrder_length (x : AlphaLetter) (l : List AlphaLetter) :
    (insertByOrder x l).length = l.length + 1 := by
  induction l with
  | nil => rfl
  | cons y ys ih =>
    by_cases h : letterSortKey x ≤ letterSortKey y <;> simp [insertByOrder, h, ih]

theorem sortLettersByOrder_length (l : List AlphaLetter) :
    (sortLettersByOrder l).length = l.length := by
  induction l with
  | nil => rfl
  | cons x xs ih => simp [sortLettersByOrder, insertByOrder_length, ih]

/-- C4: on the A..Z fixture with window 4 the first entry is
`"A  B  C  D  __" / "E" / position 5`, exactly 22 entries are produced,
and any letter list no longer than the window produces no entries. -/
theorem alphabet_order_windowing :
    (∃ e, (generate_alphabet_order_items abcLetters 4).head? = some e ∧
      e.prompt = "A  B  C  D  __" ∧ e.answer = "E" ∧ e.position = 5) ∧
    (generate_alphabet_order_items abcLetters 4).length = 22 ∧
    ∀ (letters : List AlphaLetter) (W : Nat), letters.length ≤ W →
      generate_alphabet_order_items letters W = [] := by
  refine ⟨⟨{ id := "alphabet_order_5", prompt := "A  B  C  D  __",
             answer := "E", position := 5 },
    by decide, rfl, rfl, rfl⟩, by decide, ?_⟩
  intro letters W h
  have hlen : (sortLettersByOrder letters).length - W = 0 := by
    rw [sortLettersByOrder_length]
    omega
  simp [generate_alphabet_order_items, hlen]

/-- Witness for C4's zero-entry clause at a concrete list and window. -/
theorem alphabet_order_windowing_witness :
    abcLetters.length ≤ 26 ∧ generate_alphabet_order_items abcLetters 26 = [] :=
  ⟨by decide, alphabet_order_windowing.2.2 abcLetters 26 (by decide)⟩

/-- C10: every entry yielded by the generator has
`id = "alphabet_order_" ++ str(position)`, and its position is the answer
letter's declared `order` (falling back to the 0-based index plus one when
absent).  The answer letter of output slot `j` sits at index `W + j` of
the sorted list. -/
theorem alphabet_order_entry_invariant :
    ∀ (letters : List AlphaLetter) (W j : Nat) (e : AlphabetOrderEntry),
      (generate_alphabet_order_items letters W)[j]? = some e →
      e.id = "alphabet_order_" ++ toString e.position ∧
      e.position = (((sortLettersByOrder letters).drop (W + j)).headD
        ⟨none, none⟩).order.getD (((W + j : Nat) : Int) + 1) := by
  intro letters W j e h
  unfold generate_alphabet_order_items at h
  rw [List.getElem?_map] at h
  by_cases hj : j < (sortLettersByOrder letters).length - W
  · rw [List.getElem?_eq_getElem (by simpa using hj)] at h
    simp only [List.getElem_range', Option.map_some', Nat.one_mul] at h
    obtain rfl := Option.some.inj h
    exact ⟨rfl, rfl⟩
  · rw [List.getElem?_eq_none (by simpa using hj)] at h
    simp at h

/-- Witness for C10 at the A..Z fixture, window 4, slot 0. -/
theorem alphabet_order_entry_invariant_witness :
    ∃ e, (generate_alphabet_order_items abcLetters 4)[0]? = some e ∧
      e.id = "alphabet_order_" ++ toString e.position ∧
      e.position = (((sortLettersByOrder abcLetters).drop (4 + 0)).headD
        ⟨none, none⟩).order.getD (((4 + 0 : Nat) : Int) + 1) :=
  ⟨_, rfl, alphabet_order_entry_invariant abcLetters 4 0 _ rfl⟩

/-! ### Normalizer lemmas -/

theorem normalize_item_graphemes_absent (kvs : List (String × JVal))
    (h : lookupKey kvs "graphemes" = none) :
    lookupKey (_normalize_item kvs) "graphemes" = some (.arr []) := by
  simp only [_normalize_item, h]
  split
  · exact lookupKey_setKey_self _ _ _
  · rw [lookupKey_setKey_ne _ _ _ _ (by decide)]
    exact lookupKey_setKey_self _ _ _

theorem normalize_item_graphemes_str (kvs : List (String × JVal)) (s : String)
    (h : lookupKey kvs "graphemes" = some (.str s)) :
    lookupKey (_normalize_item kvs) "graphemes" = some (.arr [.str s]) := by
  simp only [_normalize_item, h]
  split
  · exact lookupKey_setKey_self _ _ _
  · rw [lookupKey_setKey_ne _ _ _ _ (by decide)]
    exact lookupKey_setKey_self _ _ _

theorem normalize_item_notes_absent (kvs : List (String × JVal))
    (h : lookupKey kvs "notes" = none) :
    lookupKey (_normalize_item kvs) "notes" = some (.str "") := by
  have hnote : ∀ l' : List (String × JVal), lookupKey l' "notes" = none →
      lookupKey (if containsKey l' "notes" then l' else setKey l' "notes" (.str "")) "notes" =
        some (.str "") := by
    intro l' h'
    simp [containsKey, h', lookupKey_setKey_self]
  cases hg : lookupKey kvs "graphemes" with
  | none =>
    simp only [_normalize_item, hg]
    exact hnote _ (by rw [lookupKey_setKey_ne _ _ _ _ (by decide)]; exact h)
  | some v =>
    cases v <;> simp only [_normalize_item, hg] <;>
      exact hnote _ (by
        first
          | rw [lookupKey_setKey_ne _ _ _ _ (by decide)]; exact h
          | exact h)

theorem normalize_item_contains_notes (kvs : List (String × JVal)) :
    containsKey (_normalize_item kvs) "notes" = true := by
  simp only [_normalize_item]
  split
  · assumption
  · exact containsKey_setKey_self _ _ _

theorem normalize_item_graphemes_shape (kvs : List (String × JVal)) :
    ∃ w, lookupKey (_normalize_item kvs) "graphemes" = some w ∧ ∀ s, w ≠ .str s := by
  cases hg : lookupKey kvs "graphemes" with
  | none =>
    exact ⟨.arr [], normalize_item_graphemes_absent kvs hg, fun s h => JVal.noConfusion h⟩
  | some v =>
    cases v with
    | str s =>
      exact ⟨.arr [.str s], normalize_item_graphemes_str kvs s hg, fun t ht => JVal.noConfusion ht⟩
    | null =>
      refine ⟨.null, ?_, fun t ht => JVal.noConfusion ht⟩
      simp only [_normalize_item, hg]
      split
      · exact hg
      · rw [lookupKey_setKey_ne _ _ _ _ (by decide)]
        exact hg
    | bool b =>
      refine ⟨.bool b, ?_, fun t ht => JVal.noConfusion ht⟩
      simp only [_normalize_item, hg]
      split
      · exact hg
      · rw [lookupKey_setKey_ne _ _ _ _ (by decide)]
        exact hg
    | num n =>
      refine ⟨.num n, ?_, fun t ht => JVal.noConfusion ht⟩
      simp only [_normalize_item, hg]
      split
      · exact hg
      · rw [lookupKey_setKey_ne _ _ _ _ (by decide)]
        exact hg
    | arr xs =>
      refine ⟨.arr xs, ?_, fun t ht => JVal.noConfusion ht⟩
      simp only [_normalize_item, hg]
      split
      · exact hg
      · rw [lookupKey_setKey_ne _ _ _ _ (by decide)]
        exact hg
    | obj o =>
      refine ⟨.obj o, ?_, fun t ht => JVal.noConfusion ht⟩
      simp only [_normalize_item, hg]
      split
      · exact hg
      · rw [lookupKey_setKey_ne _ _ _ _ (by decide)]
        exact hg

theorem normalize_item_idem (kvs : List (String × JVal)) :
    _normalize_item (_normalize_item kvs) = _normalize_item kvs := by
  obtain ⟨w, hw, hns⟩ := normalize_item_graphemes_shape kvs
  have hn := normalize_item_contains_notes kvs
  generalize hr : _normalize_item kvs = r at hw hn ⊢
  cases w with
  | str s => exact absurd rfl (hns s)
  | null => simp only [_normalize_item, hw, hn, if_true]
  | bool b => simp only [_normalize_item, hw, hn, if_true]
  | num n => simp only [_normalize_item, hw, hn, if_true]
  | arr xs => simp only [_normalize_item, hw, hn, if_true]
  | obj o => simp only [_normalize_item, hw, hn, if_true]

theorem normalizeItemsList_eq (l : List JVal) (h : ∀ it ∈ l, ∃ kvs, it = .obj kvs) :
    normalizeItemsList l = some (l.map normItemVal) := by
  induction l with
  | nil => rfl
  | cons x rest ih =>
    obtain ⟨kvs, rfl⟩ := h x (by simp)
    simp only [normalizeItemsList, List.map_cons]
    rw [ih (fun it hit => h it (by simp [hit]))]
    rfl

theorem normItemVal_map_obj (l : List JVal) (h : ∀ it ∈ l, ∃ kvs, it = .obj kvs) :
    ∀ it ∈ l.map normItemVal, ∃ kvs, it = .obj kvs := by
  intro it hit
  rw [List.mem_map] at hit
  obtain ⟨x, hx, rfl⟩ := hit
  obtain ⟨kvs, rfl⟩ := h x hx
  exact ⟨_, rfl⟩

theorem normItemVal_map_idem (l : List JVal) (h : ∀ it ∈ l, ∃ kvs, it = .obj kvs) :
    (l.map normItemVal).map normItemVal = l.map normItemVal := by
  rw [List.map_map]
  apply List.map_congr_left
  intro x hx
  obtain ⟨kvs, rfl⟩ := h x hx
  simp [normItemVal, normalize_item_idem]

/-! ### Validator shape lemmas -/

theorem validate_item_obj (it : JVal) (i : Nat) (path : String)
    (h : _validate_item it i path = .ok ()) : ∃ kvs, it = .obj kvs := by
  cases it <;> first
    | exact ⟨_, rfl⟩
    | simp [_validate_item] at h

theorem validate_alphabet_obj (v : JVal) (path : String)
    (h : _validate_alphabet v path = .ok ()) : ∃ A, v = .obj A := by
  cases v <;> first
    | exact ⟨_, rfl⟩
    | simp [_validate_alphabet] at h

theorem validate_items_arr (v : JVal) (path : String)
    (h : _validate_items v path = .ok ()) : ∃ l, v = .arr l := by
  cases v <;> first
    | exact ⟨_, rfl⟩
    | simp [_validate_items] at h

theorem validateItemsLoop_all_obj (path : String) :
    ∀ (l : List JVal) (n : Nat) (seen : List String),
      validateItemsLoop path n seen l = .ok () → ∀ it ∈ l, ∃ kvs, it = .obj kvs := by
  intro l
  induction l with
  | nil => intro n seen _ it hit; simp at hit
  | cons x rest ih =>
    intro n seen h it hit
    simp only [validateItemsLoop] at h
    rcases hx : _validate_item x n path with e | u
    · rw [hx] at h
      simp at h
    · rw [hx] at h
      by_cases hs : item_id_str x ∈ seen
      · simp [hs] at h
      · simp only [hs, if_false, ite_false] at h
        rcases List.mem_cons.mp hit with rfl | hit2
        · exact validate_item_obj _ _ _ hx
        · exact ih _ _ (by simpa using h) it hit2

theorem validateCurriculum_shapes (d : List (String × JVal))
    (h : validateCurriculum (.obj d) = .ok ()) :
    ∃ A l, lookupKey d "alphabet" = some (.obj A) ∧ lookupKey d "items" = some (.arr l) ∧
      ∀ it ∈ l, ∃ kvs, it = .obj kvs := by
  simp only [validateCurriculum] at h
  split at h
  next hm => simp at h
  next hm =>
    split at h
    next ha => simp at h
    next ha =>
      split at h
      next hi => simp at h
      next hi =>
        split at h
        next e heq => simp at h
        next heq =>
          split at h
          next e2 halpha => simp at h
          next halpha =>
            have ha' : (lookupKey d "alphabet").isSome := by
              by_contra hc
              exact ha (by simpa [containsKey] using hc)
            have hi' : (lookupKey d "items").isSome := by
              by_contra hc
              exact hi (by simpa [containsKey] using hc)
            obtain ⟨av, hav⟩ := Option.isSome_iff_exists.mp ha'
            obtain ⟨iv, hiv⟩ := Option.isSome_iff_exists.mp hi'
            rw [hav, Option.getD_some] at halpha
            rw [hiv, Option.getD_some] at h
            obtain ⟨A, rfl⟩ := validate_alphabet_obj _ "alphabet" halpha
            obtain ⟨l, rfl⟩ := validate_items_arr _ "items" h
            refine ⟨A, l, hav, hiv, ?_⟩
            have hall := validateItemsLoop_all_obj "items" l 0 []
            simp only [_validate_items] at h
            exact hall h

/-- Closed form of `_normalize_curriculum` on a tree with a dict alphabet
and a list of dict items (the shape every validated tree has). -/
theorem normalize_run_eq (d : List (String × JVal)) (A : List (String × JVal)) (l : List JVal)
    (hA : lookupKey d "alphabet" = some (.obj A))
    (hl : lookupKey d "items" = some (.arr l))
    (hobj : ∀ it ∈ l, ∃ kvs, it = .obj kvs) :
    _normalize_curriculum d =
      if containsKey A "confusables" then
        some (setKey d "items" (.arr (l.map normItemVal)), d)
      else
        some (setKey (setKey d "items" (.arr (l.map normItemVal))) "alphabet"
                (.obj (setKey A "confusables" (.arr []))),
              setKey d "alphabet" (.obj (setKey A "confusables" (.arr [])))) := by
  have h1 : (lookupKey d "items").getD (.arr []) = .arr l := by rw [hl]; rfl
  have h2 : lookupKey (setKey d "items" (.arr (l.map normItemVal))) "alphabet" =
      some (.obj A) := by
    rw [lookupKey_setKey_ne _ _ _ _ (by decide)]
    exact hA
  simp only [_normalize_curriculum, h1, normalizeItemsList_eq l hobj, h2]

/-- C2 (code bug): `_normalize_curriculum` does NOT leave its input
value-equal.  On a validated tree whose alphabet lacks `confusables`, the
in-place write `normalized["alphabet"]["confusables"] = []` goes through
the shared alphabet dict, so the caller's tree changes. -/
theorem normalize_mutates_input :
    validateCurriculum (.obj noConfusablesTree) = .ok () ∧
    ∃ r p, _normalize_curriculum noConfusablesTree = some (r, p) ∧ p ≠ noConfusablesTree := by
  refine ⟨rfl,
    [("meta", .obj [("dialect", .str "General American"), ("version", .str "v1")]),
     ("alphabet", .obj [("letters", .arr []), ("confusables", .arr [])]),
     ("items", .arr [])],
    [("meta", .obj [("dialect", .str "General American"), ("version", .str "v1")]),
     ("alphabet", .obj [("letters", .arr []), ("confusables", .arr [])]),
     ("items", .arr [])],
    rfl, ?_⟩
  intro hcon
  have h2 : true = false := congrArg (fun dd =>
    match lookupKey dd "alphabet" with
    | some (.obj a) => containsKey a "confusables"
    | _ => false) hcon
  exact Bool.noConfusion h2

/-- C8: normalization is idempotent on validated trees — running
`_normalize_curriculum` on the result it returned reproduces that result
(and no longer touches the input, whose alphabet now has `confusables`). -/
theorem normalize_curriculum_idempotent (d r p : List (String × JVal))
    (hv : validateCurriculum (.obj d) = .ok ())
    (hn : _normalize_curriculum d = some (r, p)) :
    _normalize_curriculum r = some (r, r) := by
  obtain ⟨A, l, hA, hl, hobj⟩ := validateCurriculum_shapes d hv
  have hrun := normalize_run_eq d A l hA hl hobj
  have hobj2 := normItemVal_map_obj l hobj
  have hidem := normItemVal_map_idem l hobj
  by_cases hc : containsKey A "confusables"
  · rw [if_pos hc] at hrun
    rw [hrun] at hn
    injection hn with hn1
    injection hn1 with hn2 hn3
    subst hn2
    subst hn3
    have hl2 : lookupKey (setKey d "items" (.arr (l.map normItemVal))) "items" =
        some (.arr (l.map normItemVal)) := lookupKey_setKey_self _ _ _
    have hA2 : lookupKey (setKey d "items" (.arr (l.map normItemVal))) "alphabet" =
        some (.obj A) := by
      rw [lookupKey_setKey_ne _ _ _ _ (by decide)]
      exact hA
    rw [normalize_run_eq _ A (l.map normItemVal) hA2 hl2 hobj2, if_pos hc, hidem,
      setKey_eq_self _ _ _ hl2]
  · rw [if_neg hc] at hrun
    rw [hrun] at hn
    injection hn with hn1
    injection hn1 with hn2 hn3
    subst hn2
    subst hn3
    have hl2 : lookupKey (setKey (setKey d "items" (.arr (l.map normItemVal))) "alphabet"
        (.obj (setKey A "confusables" (.arr [])))) "items" =
        some (.arr (l.map normItemVal)) := by
      rw [lookupKey_setKey_ne _ _ _ _ (by decide)]
      exact lookupKey_setKey_self _ _ _
    have hA2 : lookupKey (setKey (setKey d "items" (.arr (l.map normItemVal))) "alphabet"
        (.obj (setKey A "confusables" (.arr [])))) "alphabet" =
        some (.obj (setKey A "confusables" (.arr []))) := lookupKey_setKey_self _ _ _
    rw [normalize_run_eq _ _ (l.map normItemVal) hA2 hl2 hobj2,
      if_pos (containsKey_setKey_self A "confusables" (.arr [])), hidem,
      setKey_eq_self _ _ _ hl2]

/-- Witness for C8 at a concrete validated curriculum. -/
theorem normalize_curriculum_idempotent_witness :
    validateCurriculum (.obj bareItemTree) = .ok () ∧
    ∃ r p, _normalize_curriculum bareItemTree = some (r, p) ∧
      _normalize_curriculum r = some (r, r) :=
  ⟨rfl, _, _, rfl, normalize_curriculum_idempotent bareItemTree _ _ rfl rfl⟩

/-- C9: in the normalized output every item that lacked `graphemes` gets
`graphemes = []`, a single-string `graphemes` is wrapped into a one-element
list, a missing `notes` becomes `""`, and the alphabet section ends up
with a `confusables` key, `[]` when it was absent. -/
theorem normalize_curriculum_defaults (d r p : List (String × JVal))
    (hv : validateCurriculum (.obj d) = .ok ())
    (hn : _normalize_curriculum d = some (r, p)) :
    (∃ l, lookupKey d "items" = some (.arr l) ∧
      lookupKey r "items" = some (.arr (l.map normItemVal)) ∧
      ∀ (j : Nat) (kvs : List (String × JVal)), l[j]? = some (.obj kvs) →
        (l.map normItemVal)[j]? = some (.obj (_normalize_item kvs))) ∧
    (∀ kvs : List (String × JVal), lookupKey kvs "graphemes" = none →
      lookupKey (_normalize_item kvs) "graphemes" = some (.arr [])) ∧
    (∀ (kvs : List (String × JVal)) (s : String),
      lookupKey kvs "graphemes" = some (.str s) →
      lookupKey (_normalize_item kvs) "graphemes" = some (.arr [.str s])) ∧
    (∀ kvs : List (String × JVal), lookupKey kvs "notes" = none →
      lookupKey (_normalize_item kvs) "notes" = some (.str "")) ∧
    (∃ A A', lookupKey d "alphabet" = some (.obj A) ∧
      lookupKey r "alphabet" = some (.obj A') ∧
      containsKey A' "confusables" = true ∧
      (lookupKey A "confusables" = none → lookupKey A' "confusables" = some (.arr []))) := by
  obtain ⟨A, l, hA, hl, hobj⟩ := validateCurriculum_shapes d hv
  have hrun := normalize_run_eq d A l hA hl hobj
  have hmap : ∀ (j : Nat) (kvs : List (String × JVal)), l[j]? = some (.obj kvs) →
      (l.map normItemVal)[j]? = some (.obj (_normalize_item kvs)) := by
    intro j kvs hj
    rw [List.getElem?_map, hj]
    rfl
  by_cases hc : containsKey A "confusables"
  · rw [if_pos hc] at hrun
    rw [hrun] at hn
    injection hn with hn1
    injection hn1 with hn2 hn3
    subst hn2
    subst hn3
    refine ⟨⟨l, hl, lookupKey_setKey_self _ _ _, hmap⟩,
      normalize_item_graphemes_absent, normalize_item_graphemes_str,
      normalize_item_notes_absent,
      A, A, hA, ?_, hc, ?_⟩
    · rw [lookupKey_setKey_ne _ _ _ _ (by decide)]
      exact hA
    · intro habs
      rw [containsKey, habs] at hc
      exact Bool.noConfusion hc
  · rw [if_neg hc] at hrun
    rw [hrun] at hn
    injection hn with hn1
    injection hn1 with hn2 hn3
    subst hn2
    subst hn3
    refine ⟨⟨l, hl, ?_, hmap⟩,
      normalize_item_graphemes_absent, normalize_item_graphemes_str,
      normalize_item_notes_absent,
      A, setKey A "confusables" (.arr []), hA, lookupKey_setKey_self _ _ _,
      containsKey_setKey_self _ _ _, fun _ => lookupKey_setKey_self _ _ _⟩
    rw [lookupKey_setKey_ne _ _ _ _ (by decide)]
    exact lookupKey_setKey_self _ _ _

/-- Witness for C9 at a concrete validated curriculum whose item lacks
`graphemes`/`notes` and whose alphabet lacks `confusables`. -/
theorem normalize_curriculum_defaults_witness :
    validateCurriculum (.obj bareItemTree) = .ok () ∧
    ∃ r p, _normalize_curriculum bareItemTree = some (r, p) ∧
      ∃ A A', lookupKey bareItemTree "alphabet" = some (.obj A) ∧
        lookupKey r "alphabet" = some (.obj A') ∧
        containsKey A' "confusables" = true ∧
        (lookupKey A "confusables" = none → lookupKey A' "confusables" = some (.arr [])) :=
  ⟨rfl, _, _, rfl,
    (normalize_curriculum_defaults bareItemTree _ _ rfl rfl).2.2.2.2⟩

/-! ### Meta validation (C3) -/

/-- C3 counterexample: a curriculum whose `meta` maps both `dialect` and
`version` to `null` passes validation — `_validate_meta` never rejects
null values, contradicting the claim that it must fail. -/
theorem validate_accepts_null_meta_values : validateCurriculum nullMetaTree = .ok () := rfl

/-- C3 amended: `_validate_meta` checks only PRESENCE of `dialect` and
`version` on an object meta — it accepts any values, null included, and
fails exactly when one of the two keys is absent. -/
theorem validate_meta_presence_only (kvs : List (String × JVal)) :
    _validate_meta (.obj kvs) "meta" = .ok () ↔
      (containsKey kvs "dialect" = true ∧ containsKey kvs "version" = true) := by
  simp only [_validate_meta]
  split_ifs with h1 h2 <;> simp_all

/-! ### Duplicate-id detection (C5) -/

theorem validateItemsLoop_first_duplicate (path : String) :
    ∀ (l : List JVal) (i : Nat) (v : JVal) (n : Nat) (seen : List String),
      l[i]? = some v →
      (∀ k w, k ≤ i → l[k]? = some w → _validate_item w (n + k) path = .ok ()) →
      (item_id_str v ∈ seen ∨
        ∃ j w, j < i ∧ l[j]? = some w ∧ item_id_str w = item_id_str v) →
      (∀ k w, k < i → l[k]? = some w →
        item_id_str w ∉ seen ∧
        ∀ j u, j < k → l[j]? = some u → item_id_str u ≠ item_id_str w) →
      validateItemsLoop path n seen l =
        .error (path ++ "[" ++ toString (n + i) ++ "]: duplicate id '" ++ item_id_str v ++ "'") := by
  intro l
  induction l with
  | nil => intro i v n seen hv _ _ _; simp at hv
  | cons x rest ih =>
    intro i v n seen hv hvalid hdup hfirst
    cases i with
    | zero =>
      have hx : x = v := by simpa using hv
      subst hx
      have hok : _validate_item x n path = .ok () := by
        simpa using hvalid 0 x (le_refl 0) (by simp)
      have hmem : item_id_str x ∈ seen := by
        rcases hdup with hmem | ⟨j, w, hj, _, _⟩
        · exact hmem
        · omega
      simp only [validateItemsLoop, hok]
      rw [if_pos hmem, Nat.add_zero]
    | succ i' =>
      have hvx : rest[i']? = some v := by simpa using hv
      have hok : _validate_item x n path = .ok () := by
        simpa using hvalid 0 x (Nat.zero_le _) (by simp)
      have hx0 := hfirst 0 x (Nat.succ_pos i') (by simp)
      have hvalid' : ∀ k w, k ≤ i' → rest[k]? = some w →
          _validate_item w ((n + 1) + k) path = .ok () := by
        intro k w hk hw
        have h2 := hvalid (k + 1) w (by omega) (by simpa using hw)
        have heq : n + (k + 1) = (n + 1) + k := by omega
        rw [heq] at h2
        exact h2
      have hdup' : item_id_str v ∈ (item_id_str x :: seen) ∨
          ∃ j w, j < i' ∧ rest[j]? = some w ∧ item_id_str w = item_id_str v := by
        rcases hdup with hmem | ⟨j, w, hj, hjw, hid⟩
        · exact Or.inl (List.mem_cons_of_mem _ hmem)
        · cases j with
          | zero =>
            have hxw : x = w := by simpa using hjw
            subst hxw
            rw [← hid]
            exact Or.inl (List.mem_cons_self _ _)
          | succ j' =>
            exact Or.inr ⟨j', w, by omega, by simpa using hjw, hid⟩
      have hfirst' : ∀ k w, k < i' → rest[k]? = some w →
          item_id_str w ∉ (item_id_str x :: seen) ∧
          ∀ j u, j < k → rest[j]? = some u → item_id_str u ≠ item_id_str w := by
        intro k w hk hw
        have h2 := hfirst (k + 1) w (by omega) (by simpa using hw)
        constructor
        · intro hmem
          rcases List.mem_cons.mp hmem with heq | hmem2
          · exact h2.2 0 x (Nat.succ_pos k) (by simp) heq.symm
          · exact h2.1 hmem2
        · intro j u hj hu
          exact h2.2 (j + 1) u (by omega) (by simpa using hu)
      have hrec := ih i' v (n + 1) (item_id_str x :: seen) hvx hvalid' hdup' hfirst'
      simp only [validateItemsLoop, hok]
      rw [if_neg hx0.1, hrec]
      have heq : (n + 1) + i' = n + (i' + 1) := by omega
      rw [heq]

/-- C5: whenever index `i` is the earliest repeat — `items[i]`'s id equals
some earlier item's id, no earlier index repeats, and every item up to `i`
is individually valid — `_validate_items` fails with the duplicate-id
error naming exactly index `i` and that id. -/
theorem validate_items_reports_first_duplicate (items : List JVal) (i : Nat) (v : JVal)
    (hv : items[i]? = some v)
    (hvalid : ∀ k w, k ≤ i → items[k]? = some w → _validate_item w k "items" = .ok ())
    (hdup : ∃ j w, j < i ∧ items[j]? = some w ∧ item_id_str w = item_id_str v)
    (hfirst : ∀ k w, k < i → items[k]? = some w →
      ∀ j u, j < k → items[j]? = some u → item_id_str u ≠ item_id_str w) :
    _validate_items (.arr items) "items" =
      .error ("items[" ++ toString i ++ "]: duplicate id '" ++ item_id_str v ++ "'") := by
  have h := validateItemsLoop_first_duplicate "items" items i v 0 []
    hv
    (fun k w hk hw => by
      have h2 := hvalid k w hk hw
      have heq : (0 : Nat) + k = k := by omega
      rw [heq]
      exact h2)
    (Or.inr hdup)
    (fun k w hk hw => ⟨List.not_mem_nil _, hfirst k w hk hw⟩)
  simpa using h

/-- Witness for C5 at the two-item duplicate fixture. -/
theorem validate_items_reports_first_duplicate_witness :
    _validate_items (.arr dupItems) "items" = .error "items[1]: duplicate id 'same_id'" := by
  have h := validate_items_reports_first_duplicate dupItems 1
    (.obj [("id", .str "same_id"), ("type", .str "sound"),
           ("examples", .arr [.obj [("word", .str "two")]])])
    rfl
    (by
      intro k w hk hw
      interval_cases k
      · obtain rfl := Option.some.inj hw
        rfl
      · obtain rfl := Option.some.inj hw
        rfl)
    ⟨0, .obj [("id", .str "same_id"), ("type", .str "sound"),
              ("examples", .arr [.obj [("word", .str "one")]])],
      by omega, rfl, rfl⟩
    (by
      intro k w hk hw j u hj hu
      omega)
  exact h
